import Mathlib

/-!
# play_sound (modules/sound-player/src/play.c)

A shallow embedding of `play_sound` and of the system and library calls it
makes.  The process is an explicit `World`: a file-descriptor table, the set of
open sink connections, `errno`, the diagnostics printed so far, the trace of
calls made, and the answers the environment will give (which paths open, what
the reads deliver, how the writes end, whether the diagnostics can be
written).  `play_sound` is a function from the world at entry to the returned
`int` (or `none` when the call never returns because a read or a write blocks
for ever) and the world at exit.
-/

namespace Play

/-- One octet of audio data (`uint8_t`). -/
abbrev Byte := Nat

/-- Size of the transfer buffer: `#define BUFSIZE 2048`. -/
def BUFSIZE : Nat := 2048

/-- Descriptor number of standard input (`unistd.h`). -/
def STDIN_FILENO : Nat := 0

/-- Value of `EXIT_SUCCESS` (`stdlib.h`). -/
def EXIT_SUCCESS : Int := 0

/-- Error number `EBADF`: the descriptor is not open. -/
def EBADF : Int := 9

/-- What one `read` on an open descriptor delivers: the bytes the source hands
over (none at all at end of file), or a failure with an error number. -/
inductive ReadRes where
  | data (bytes : List Byte)
  | fail (errno : Int)
  deriving DecidableEq, Repr

/-- How one `pa_simple_write` ends: accepted, or failed with a sink error code. -/
inductive WriteRes where
  | ok
  | fail (error : Int)
  deriving DecidableEq, Repr

/-- A call made by `play_sound`, with its arguments and its result. -/
inductive Event where
  | callOpen (path : String) (res : Int)
  | callDup2 (oldfd newfd : Nat) (res : Int)
  | callClose (fd : Nat)
  | callNew (name : String) (res : Option Nat)
  | callRead (fd count : Nat) (res : Int) (got : List Byte)
  | callWrite (s : Option Nat) (data : List Byte) (res : Int)
  deriving DecidableEq, Repr

/-- The process and its environment.  `fdt` maps a descriptor number (the
position in the list) to the file it refers to, `none` when it is closed. -/
structure World where
  /-- file-descriptor table -/
  fdt : List (Option Nat)
  /-- sink connections that are open -/
  sinks : List Nat
  /-- the C `errno` -/
  errno : Int
  /-- lines passed to `printf` and `fprintf` -/
  diag : List String
  /-- calls made so far, oldest first -/
  trace : List Event
  /-- the file system: the file a path opens, or the error number of `open` -/
  fs : String → Except Int Nat
  /-- set to `some e` when `dup2` is going to fail with error number `e` -/
  dup2Err : Option Int
  /-- answer of `pa_simple_new`: a connection, or an error code -/
  newRes : Except Int Nat
  /-- what the coming reads deliver; when exhausted a read blocks for ever -/
  reads : List ReadRes
  /-- how the coming writes end; when exhausted a write blocks for ever -/
  writes : List WriteRes
  /-- indeterminate content of the stack storage that `buf` is going to occupy -/
  stack : List Byte
  /-- set to `some e` when a `printf` on stdout leaves error number `e` in `errno` -/
  stdoutErr : Option Int
  /-- set to `some e` when an `fprintf` on stderr leaves error number `e` in `errno`:
  the write of the diagnostic fails (stderr closed: 9, device full: 28) -/
  stderrErr : Option Int

/-- The file a descriptor refers to. -/
def getFd : List (Option Nat) → Nat → Option Nat
  | [], _ => none
  | x :: _, 0 => x
  | _ :: t, n + 1 => getFd t n

/-- The table with descriptor `fd` rebound to `v`. -/
def setFd : List (Option Nat) → Nat → Option Nat → List (Option Nat)
  | [], 0, v => [v]
  | [], n + 1, v => none :: setFd [] n v
  | _ :: t, 0, v => v :: t
  | x :: t, n + 1, v => x :: setFd t n v

/-- The lowest descriptor number that is not open: the one `open` returns. -/
def lowestFree : List (Option Nat) → Nat
  | [] => 0
  | none :: _ => 0
  | some _ :: t => lowestFree t + 1

/-- Model of `printf(...)`: one more line of diagnostics for stdout; `errno` is
overwritten when the environment says so. -/
def World.printf (w : World) (msg : String) : World :=
  { w with diag := w.diag ++ [msg], errno := w.stdoutErr.getD w.errno }

/-- Model of `fprintf(stderr, ...)`: one more line of diagnostics for stderr;
`errno` is overwritten when the write of the line fails. -/
def World.fprintf (w : World) (msg : String) : World :=
  { w with diag := w.diag ++ [msg], errno := w.stderrErr.getD w.errno }

/-- Records a call in the trace. -/
def World.emit (w : World) (e : Event) : World :=
  { w with trace := w.trace ++ [e] }

/-- Model of `open(path, O_RDONLY)`: on failure returns -1 and sets `errno`; on success
binds the lowest free descriptor to the file and returns it. -/
def sys_open (w : World) (path : String) : Int × World :=
  match w.fs path with
  | .error e => (-1, { w with errno := e }.emit (.callOpen path (-1)))
  | .ok file =>
    let fd := lowestFree w.fdt
    (fd, { w with fdt := setFd w.fdt fd (some file) }.emit (.callOpen path fd))

/-- Model of `dup2(oldfd, newfd)`: fails with `EBADF` when `oldfd` is not open, does
nothing when both are the same open descriptor, and otherwise makes `newfd`
refer to the file of `oldfd`. -/
def sys_dup2 (w : World) (oldfd newfd : Nat) : Int × World :=
  match getFd w.fdt oldfd with
  | none => (-1, { w with errno := EBADF }.emit (.callDup2 oldfd newfd (-1)))
  | some file =>
    match w.dup2Err with
    | some e => (-1, { w with errno := e }.emit (.callDup2 oldfd newfd (-1)))
    | none =>
      if oldfd = newfd then (newfd, w.emit (.callDup2 oldfd newfd newfd))
      else
        (newfd, { w with fdt := setFd w.fdt newfd (some file) }.emit
          (.callDup2 oldfd newfd newfd))

/-- Model of `close(fd)`: the descriptor is released (the code ignores the result). -/
def sys_close (w : World) (fd : Nat) : World :=
  match getFd w.fdt fd with
  | none => { w with errno := EBADF }.emit (.callClose fd)
  | some _ => { w with fdt := setFd w.fdt fd none }.emit (.callClose fd)

/-- Model of `pa_simple_new(...)`: a new connection to the sink, or `NULL`.  The
connection is an opaque handle; the descriptors the library uses for it belong
to the connection and are not entries of `fdt`. -/
def pa_simple_new (w : World) (name : String) : Option Nat × World :=
  match w.newRes with
  | .error _ => (none, w.emit (.callNew name none))
  | .ok s => (some s, { w with sinks := s :: w.sinks }.emit (.callNew name (some s)))

/-- Model of `read(fd, buf, count)`: returns the byte count (0 at end of file, -1 with
`errno` set on failure) and the buffer, whose first bytes are overwritten by
what was read.  Never more than `count` bytes are returned.  `none`: the call
blocks for ever. -/
def sys_read (w : World) (fd : Nat) (buf : List Byte) (count : Nat) :
    Option (Int × List Byte × World) :=
  match getFd w.fdt fd with
  | none => some (-1, buf, { w with errno := EBADF }.emit (.callRead fd count (-1) []))
  | some _ =>
    match w.reads with
    | [] => none
    | .fail e :: rest =>
      some (-1, buf, { w with errno := e, reads := rest }.emit (.callRead fd count (-1) []))
    | .data bytes :: rest =>
      let got := bytes.take count
      some (got.length, got ++ buf.drop got.length,
        { w with reads := rest }.emit (.callRead fd count got.length got))

/-- Model of `pa_simple_write(s, data, length, &error)`: returns the result
(negative on failure) and the value left in `error`, which the code reads only
after a failure.  How the library answers, also for a `NULL` connection, is up
to the environment.  `none`: the call blocks for ever. -/
def pa_simple_write (w : World) (s : Option Nat) (data : List Byte) :
    Option (Int × Int × World) :=
  match w.writes with
  | [] => none
  | .ok :: rest => some (0, 0, { w with writes := rest }.emit (.callWrite s data 0))
  | .fail e :: rest => some (-1, e, { w with writes := rest }.emit (.callWrite s data (-1)))

/-- The `for (;;)` loop of `play_sound`.  `buf` is the 2048-byte buffer, whose
storage is reused by every iteration.  The first argument bounds the number of
iterations; `play_sound` passes one more than the number of reads the
environment answers, which the loop cannot use up. -/
def play_loop (s : Option Nat) : Nat → World → List Byte → Option Int × World
  | 0, w, _ => (none, w)
  | fuel + 1, w, buf =>
    match sys_read w STDIN_FILENO buf BUFSIZE with
    | none => (none, w)
    | some (r, buf1, w1) =>
      if r ≤ 0 then
        if r = 0 then (some EXIT_SUCCESS, w1)
        else
          let w2 := w1.fprintf "read() failed"
          (some w2.errno, w2)
      else
        match pa_simple_write w1 s (buf1.take r.toNat) with
        | none => (none, w1)
        | some (res, error, w2) =>
          if res < 0 then (some error, w2.fprintf "pa_simple_write() failed")
          else play_loop s fuel w2 buf1

/-- The function `int play_sound(char *sound_file)`. -/
def play_sound (w : World) (sound_file : String) : Option Int × World :=
  let w := w.printf "Playing sound file"
  let (fd, w1) := sys_open w sound_file
  if fd < 0 then
    let w2 := w1.fprintf "open() failed"
    (some w2.errno, w2)
  else
    let (d, w2) := sys_dup2 w1 fd.toNat STDIN_FILENO
    if d < 0 then
      let w3 := w2.fprintf "dup2() failed"
      (some w3.errno, w3)
    else
      let w3 := sys_close w2 fd.toNat
      let (s, w4) := pa_simple_new w3 sound_file
      let w5 := if s.isNone then w4.fprintf "pa_simple_new() failed" else w4
      play_loop s (w5.reads.length + 1) w5 w5.stack

/-! ## Observations on a run -/

/-- The calls made between the world `w` at entry and the world `w2` at exit. -/
def newTrace (w w2 : World) : List Event :=
  w2.trace.drop w.trace.length

/-- The byte blocks passed to `pa_simple_write`, in order. -/
def writtenBlocks : List Event → List (List Byte)
  | [] => []
  | .callWrite _ data _ :: t => data :: writtenBlocks t
  | _ :: t => writtenBlocks t

/-- The byte blocks that `pa_simple_write` accepted, in order. -/
def acceptedBlocks : List Event → List (List Byte)
  | [] => []
  | .callWrite _ data res :: t =>
    if res < 0 then acceptedBlocks t else data :: acceptedBlocks t
  | _ :: t => acceptedBlocks t

/-- The byte blocks returned by `read`, in order (empty for a read that returned
0 or failed). -/
def readBlocks : List Event → List (List Byte)
  | [] => []
  | .callRead _ _ _ got :: t => got :: readBlocks t
  | _ :: t => readBlocks t

/-- The lengths passed to `pa_simple_write`, in order. -/
def writeLens (t : List Event) : List Nat :=
  (writtenBlocks t).map List.length

/-- Whether the call is one to the sink or a read: `pa_simple_new`, `read` or
`pa_simple_write`. -/
def Event.isSinkOrRead : Event → Bool
  | .callNew _ _ => true
  | .callRead _ _ _ _ => true
  | .callWrite _ _ _ => true
  | _ => false

/-- A `pa_simple_write` is in order when the call just before it is a `read`
that returned exactly the length written, between 1 and `BUFSIZE`, and placed
in the buffer exactly the bytes written. -/
def writeOk (prev : Option Event) (e : Event) : Bool :=
  match e with
  | .callWrite _ data _ =>
    match prev with
    | some (.callRead _ _ r got) =>
      decide (r = data.length) && decide (got = data) && decide (1 ≤ data.length)
        && decide (data.length ≤ BUFSIZE)
    | _ => false
  | _ => true

/-- Every `pa_simple_write` of the trace is in order; `prev` is the call before
the trace. -/
def writesFollowReads : Option Event → List Event → Bool
  | _, [] => true
  | prev, e :: t => writeOk prev e && writesFollowReads (some e) t

/-- The calls made before the loop when `open` and `dup2` succeed. -/
def setupEvents (path : String) (fd : Nat) (s : Option Nat) : List Event :=
  [.callOpen path fd, .callDup2 fd STDIN_FILENO STDIN_FILENO, .callClose fd, .callNew path s]

/-- The calls of complete read/write cycles, one per chunk. -/
def cycleEvents (s : Option Nat) : List (List Byte) → List Event
  | [] => []
  | c :: cs =>
    .callRead STDIN_FILENO BUFSIZE c.length c :: .callWrite s c 0 :: cycleEvents s cs

/-- Content of the buffer after the chunks were read into it one after the other. -/
def bufAfter (buf : List Byte) : List (List Byte) → List Byte
  | [] => buf
  | c :: cs => bufAfter (c ++ buf.drop c.length) cs

/-- The sink handle `pa_simple_new` is going to return (`none` for `NULL`). -/
def sinkOf (w : World) : Option Nat :=
  match w.newRes with
  | .ok s => some s
  | .error _ => none

/-- The world when the loop is entered, after `open` and `dup2` succeeded. -/
def loopWorld (w : World) (path : String) (file : Nat) : World :=
  { w with
    fdt := setFd (setFd (setFd w.fdt (lowestFree w.fdt) (some file)) STDIN_FILENO (some file))
      (lowestFree w.fdt) none
    sinks := match w.newRes with
      | .ok s => s :: w.sinks
      | .error _ => w.sinks
    errno := match w.newRes with
      | .ok _ => w.stdoutErr.getD w.errno
      | .error _ => w.stderrErr.getD (w.stdoutErr.getD w.errno)
    diag := match w.newRes with
      | .ok _ => w.diag ++ ["Playing sound file"]
      | .error _ => w.diag ++ ["Playing sound file", "pa_simple_new() failed"]
    trace := w.trace ++ setupEvents path (lowestFree w.fdt) (sinkOf w) }

/-- The blocks a regular file hands to reads of `BUFSIZE` bytes: each read gets
the next `min BUFSIZE (bytes remaining)` bytes, as long as bytes remain.  The
first argument bounds the number of blocks. -/
def fileChunks : Nat → List Byte → List (List Byte)
  | 0, _ => []
  | n + 1, rest =>
    if rest = [] then [] else rest.take BUFSIZE :: fileChunks n (rest.drop BUFSIZE)

/-- What the reads on a regular file with the given content deliver: its blocks,
then end of file. -/
def fileReads (content : List Byte) : List ReadRes :=
  (fileChunks content.length content).map ReadRes.data ++ [ReadRes.data []]

/-- Every descriptor open in `w2` was open on the same file in `w`, and every
sink connection open in `w2` was open in `w`: nothing acquired between `w` and
`w2` is still held. -/
def handlesReleased (w w2 : World) : Bool :=
  (List.range w2.fdt.length).all
      (fun fd => getFd w2.fdt fd == none || getFd w2.fdt fd == getFd w.fdt fd)
    && w2.sinks.all (fun s => w.sinks.contains s)

/-- A process whose descriptor table is `fdt`, in which `/tmp/tone.raw` opens
file 7 and every other path fails with error number 2 (`ENOENT`), and whose
diagnostics are written without trouble. -/
def sampleWorld (fdt : List (Option Nat)) (dup2Err : Option Int) (newRes : Except Int Nat)
    (reads : List ReadRes) (writes : List WriteRes) : World :=
  { fdt := fdt
    sinks := []
    errno := 0
    diag := []
    trace := []
    fs := fun p => if p = "/tmp/tone.raw" then .ok 7 else .error 2
    dup2Err := dup2Err
    newRes := newRes
    reads := reads
    writes := writes
    stack := []
    stdoutErr := none
    stderrErr := none }

/-- The three standard descriptors, open on the terminal (file 100). -/
def stdFds : List (Option Nat) := [some 100, some 100, some 100]

/-- Two short reads (3 bytes, 1 byte), then end of file; both writes accepted. -/
def wTwoChunks : World :=
  sampleWorld stdFds none (.ok 1) [.data [1, 2, 3], .data [4], .data []] [.ok, .ok]

/-- As `wTwoChunks`, but the sink rejects the second write with code 5. -/
def wWriteFails : World :=
  sampleWorld stdFds none (.ok 1) [.data [1, 2, 3], .data [4], .data []] [.ok, .fail 5]

/-- One complete cycle, then `read` fails with error number 5 (`EIO`). -/
def wReadFails : World :=
  sampleWorld stdFds none (.ok 1) [.data [1, 2, 3], .fail 5, .data []] [.ok, .ok]

/-- The redirection fails: `dup2` reports error number 4 (`EINTR`). -/
def wDup2Fails : World :=
  sampleWorld stdFds (some 4) (.ok 1) [.data [1, 2, 3], .data []] [.ok]

/-- No sink: `pa_simple_new` returns `NULL`; the file is empty. -/
def wNoSink : World :=
  sampleWorld stdFds none (.error 6) [.data []] []

/-- No sink: `pa_simple_new` returns `NULL`; the file holds three bytes. -/
def wNoSinkData : World :=
  sampleWorld stdFds none (.error 6) [.data [1, 2, 3], .data []] [.fail 3]

/-- Standard input is closed at entry (descriptors 1 and 2 are open); the file
holds three bytes. -/
def wStdinClosed : World :=
  sampleWorld [none, some 100, some 100] none (.ok 1) [.data [1, 2, 3], .data []] [.ok]

/-- As `wTwoChunks`, with stderr on a full device: every `fprintf` fails and
leaves error number 28 (`ENOSPC`) in `errno`. -/
def wStderrFull : World :=
  { wTwoChunks with stderrErr := some 28 }

/-- As `wReadFails`, with stderr on a full device. -/
def wReadFailsStderrFull : World :=
  { wReadFails with stderrErr := some 28 }

/-- As `wDup2Fails`, with stderr on a full device. -/
def wDup2FailsStderrFull : World :=
  { wDup2Fails with stderrErr := some 28 }

/-- A regular file of `n` zero bytes read without short reads; every write is
accepted. -/
def wFile (n : Nat) : World :=
  sampleWorld stdFds none (.ok 1) (fileReads (List.replicate n 0))
    (List.replicate ((n + 2047) / 2048) .ok)

/-! ## The descriptor table -/

theorem getFd_setFd_same (t : List (Option Nat)) (fd : Nat) (v : Option Nat) :
    getFd (setFd t fd v) fd = v := by
  induction fd generalizing t with
  | zero => cases t <;> simp [setFd, getFd]
  | succ n ih => cases t <;> simp [setFd, getFd, ih]

theorem getFd_setFd_other (t : List (Option Nat)) (fd fd2 : Nat) (v : Option Nat)
    (h : fd2 ≠ fd) : getFd (setFd t fd v) fd2 = getFd t fd2 := by
  induction fd generalizing t fd2 with
  | zero =>
    cases fd2 with
    | zero => exact absurd rfl h
    | succ m => cases t <;> simp [setFd, getFd]
  | succ n ih =>
    cases fd2 with
    | zero => cases t <;> simp [setFd, getFd]
    | succ m =>
      have hm : m ≠ n := fun e => h (by rw [e])
      cases t with
      | nil => simp only [setFd, getFd]; rw [ih [] m hm]; simp [getFd]
      | cons x t => simp only [setFd, getFd]; exact ih t m hm

theorem getFd_lowestFree (t : List (Option Nat)) : getFd t (lowestFree t) = none := by
  induction t with
  | nil => rfl
  | cons x t ih => cases x <;> simp [lowestFree, getFd, ih]

theorem lowestFree_ne_stdin (t : List (Option Nat)) (h : getFd t STDIN_FILENO ≠ none) :
    lowestFree t ≠ STDIN_FILENO := by
  intro h0
  apply h
  rw [← h0]
  exact getFd_lowestFree t

theorem lowestFree_eq_stdin (t : List (Option Nat)) (h : getFd t STDIN_FILENO = none) :
    lowestFree t = STDIN_FILENO := by
  cases t with
  | nil => rfl
  | cons x t =>
    cases x with
    | none => rfl
    | some v => simp [getFd, STDIN_FILENO] at h

/-! ## From entry to the loop -/

theorem play_sound_open_fail (w : World) (path : String) (e : Int)
    (h : w.fs path = .error e) :
    play_sound w path
      = (some (w.stderrErr.getD e),
          { w with errno := w.stderrErr.getD e
                   diag := w.diag ++ ["Playing sound file", "open() failed"]
                   trace := w.trace ++ [.callOpen path (-1)] }) := by
  simp [play_sound, sys_open, h, World.printf, World.fprintf, World.emit]

theorem play_sound_dup2_fail (w : World) (path : String) (file : Nat) (e : Int)
    (h : w.fs path = .ok file) (hd : w.dup2Err = some e) :
    play_sound w path
      = (some (w.stderrErr.getD e),
          { w with fdt := setFd w.fdt (lowestFree w.fdt) (some file)
                   errno := w.stderrErr.getD e
                   diag := w.diag ++ ["Playing sound file", "dup2() failed"]
                   trace := w.trace ++ [.callOpen path (lowestFree w.fdt),
                     .callDup2 (lowestFree w.fdt) STDIN_FILENO (-1)] }) := by
  have hneg : ¬ ((lowestFree w.fdt : Int) < 0) := by omega
  simp only [play_sound, sys_open, World.printf, World.fprintf, World.emit, h, hneg, if_false,
      Int.toNat_ofNat,
    sys_dup2, getFd_setFd_same, hd]
  simp

theorem setFd_setFd_same (t : List (Option Nat)) (fd : Nat) (a b : Option Nat) :
    setFd (setFd t fd a) fd b = setFd t fd b := by
  induction fd generalizing t with
  | zero => cases t <;> simp [setFd]
  | succ n ih => cases t <;> simp [setFd, ih]

theorem play_sound_eq_loop (w : World) (path : String) (file : Nat)
    (h : w.fs path = .ok file) (hd : w.dup2Err = none) :
    play_sound w path
      = play_loop (sinkOf w) (w.reads.length + 1) (loopWorld w path file) w.stack := by
  have hneg : ¬ ((lowestFree w.fdt : Int) < 0) := by omega
  have hneg0 : ¬ ((STDIN_FILENO : Int) < 0) := by simp [STDIN_FILENO]
  by_cases h0 : lowestFree w.fdt = STDIN_FILENO
  · simp only [play_sound, sys_open, World.printf, World.fprintf, World.emit, h, hneg, if_false,
      Int.toNat_ofNat,
      sys_dup2, getFd_setFd_same, hd, h0, hneg0, sys_close, if_true, pa_simple_new]
    cases hn : w.newRes with
    | error e =>
      simp [sinkOf, loopWorld, hn, hd, h0, setupEvents, World.printf, World.fprintf,
        setFd_setFd_same]
    | ok s => simp [sinkOf, loopWorld, hn, hd, h0, setupEvents, setFd_setFd_same]
  · have hfd : getFd (setFd (setFd w.fdt (lowestFree w.fdt) (some file)) STDIN_FILENO
        (some file)) (lowestFree w.fdt) = some file := by
      rw [getFd_setFd_other _ _ _ _ h0, getFd_setFd_same]
    simp only [play_sound, sys_open, World.printf, World.fprintf, World.emit, h, hneg, if_false,
      Int.toNat_ofNat,
      sys_dup2, getFd_setFd_same, hd, h0, hneg0, sys_close, hfd, pa_simple_new]
    cases hn : w.newRes with
    | error e => simp [sinkOf, loopWorld, hn, hd, setupEvents, World.printf, World.fprintf]
    | ok s => simp [sinkOf, loopWorld, hn, hd, setupEvents]

theorem loopWorld_stdin (w : World) (path : String) (file : Nat)
    (h0 : lowestFree w.fdt ≠ STDIN_FILENO) :
    getFd (loopWorld w path file).fdt STDIN_FILENO = some file := by
  simp only [loopWorld]
  rw [getFd_setFd_other _ _ _ _ (Ne.symm h0), getFd_setFd_same]

/-! ## The loop -/

theorem play_loop_step (s : Option Nat) (n : Nat) (w : World) (buf c : List Byte) (f : Nat)
    (tr : List ReadRes) (tw : List WriteRes)
    (hfd : getFd w.fdt STDIN_FILENO = some f) (hr : w.reads = .data c :: tr)
    (hw : w.writes = .ok :: tw) (hc : c ≠ []) (hlen : c.length ≤ BUFSIZE) :
    play_loop s (n + 1) w buf
      = play_loop s n
          { w with reads := tr, writes := tw,
                   trace := w.trace ++ cycleEvents s [c] }
          (c ++ buf.drop c.length) := by
  have htake : c.take BUFSIZE = c := List.take_of_length_le hlen
  have hpos : ¬ ((c.length : Int) ≤ 0) := by
    have : 0 < c.length := List.length_pos.mpr hc
    omega
  simp only [play_loop, sys_read, hfd, hr, htake, hpos, if_false, World.emit, pa_simple_write, hw,
    Int.toNat_ofNat, List.take_left', cycleEvents]
  simp

theorem play_loop_cycles (s : Option Nat) (chunks : List (List Byte)) :
    ∀ (n : Nat) (w : World) (buf : List Byte) (f : Nat) (tr : List ReadRes) (tw : List WriteRes),
      getFd w.fdt STDIN_FILENO = some f →
      w.reads = chunks.map ReadRes.data ++ tr →
      w.writes = List.replicate chunks.length WriteRes.ok ++ tw →
      (∀ c ∈ chunks, c ≠ [] ∧ c.length ≤ BUFSIZE) →
      play_loop s (chunks.length + n) w buf
        = play_loop s n
            { w with reads := tr, writes := tw, trace := w.trace ++ cycleEvents s chunks }
            (bufAfter buf chunks) := by
  induction chunks with
  | nil =>
    intro n w buf f tr tw _ hr hw _
    simp at hr hw
    simp [cycleEvents, bufAfter, ← hr, ← hw]
  | cons c cs ih =>
    intro n w buf f tr tw hfd hr hw hall
    have hc := hall c (List.mem_cons_self c cs)
    have hrest : ∀ c2 ∈ cs, c2 ≠ [] ∧ c2.length ≤ BUFSIZE :=
      fun c2 h2 => hall c2 (List.mem_cons_of_mem c h2)
    have e1 : (c :: cs).length + n = (cs.length + n) + 1 := by simp; omega
    rw [e1, play_loop_step s (cs.length + n) w buf c f (cs.map ReadRes.data ++ tr)
      (List.replicate cs.length WriteRes.ok ++ tw) hfd (by simpa using hr)
      (by simpa [List.replicate_succ] using hw) hc.1 hc.2]
    rw [ih n { w with reads := cs.map ReadRes.data ++ tr,
                      writes := List.replicate cs.length WriteRes.ok ++ tw,
                      trace := w.trace ++ cycleEvents s [c] } _ f tr tw hfd rfl rfl hrest]
    simp [cycleEvents, bufAfter]

theorem play_loop_eof (s : Option Nat) (n : Nat) (w : World) (buf : List Byte) (f : Nat)
    (tr : List ReadRes)
    (hfd : getFd w.fdt STDIN_FILENO = some f) (hr : w.reads = .data [] :: tr) :
    play_loop s (n + 1) w buf
      = (some EXIT_SUCCESS,
          { w with reads := tr
                   trace := w.trace ++ [.callRead STDIN_FILENO BUFSIZE 0 []] }) := by
  simp [play_loop, sys_read, hfd, hr, World.emit]

theorem play_loop_read_fail (s : Option Nat) (n : Nat) (w : World) (buf : List Byte) (f : Nat)
    (e : Int) (tr : List ReadRes)
    (hfd : getFd w.fdt STDIN_FILENO = some f) (hr : w.reads = .fail e :: tr) :
    play_loop s (n + 1) w buf
      = (some (w.stderrErr.getD e),
          { w with errno := w.stderrErr.getD e
                   reads := tr
                   diag := w.diag ++ ["read() failed"]
                   trace := w.trace ++ [.callRead STDIN_FILENO BUFSIZE (-1) []] }) := by
  simp [play_loop, sys_read, hfd, hr, World.emit, World.printf, World.fprintf]

theorem play_loop_closed (s : Option Nat) (n : Nat) (w : World) (buf : List Byte)
    (hfd : getFd w.fdt STDIN_FILENO = none) :
    play_loop s (n + 1) w buf
      = (some (w.stderrErr.getD EBADF),
          { w with errno := w.stderrErr.getD EBADF
                   diag := w.diag ++ ["read() failed"]
                   trace := w.trace ++ [.callRead STDIN_FILENO BUFSIZE (-1) []] }) := by
  simp [play_loop, sys_read, hfd, World.emit, World.printf, World.fprintf]

theorem play_loop_write_fail (s : Option Nat) (n : Nat) (w : World) (buf c : List Byte)
    (f : Nat) (e : Int) (tr : List ReadRes) (tw : List WriteRes)
    (hfd : getFd w.fdt STDIN_FILENO = some f) (hr : w.reads = .data c :: tr)
    (hw : w.writes = .fail e :: tw) (hc : c ≠ []) (hlen : c.length ≤ BUFSIZE) :
    play_loop s (n + 1) w buf
      = (some e,
          { w with errno := w.stderrErr.getD w.errno
                   reads := tr
                   writes := tw
                   diag := w.diag ++ ["pa_simple_write() failed"]
                   trace := w.trace ++ [.callRead STDIN_FILENO BUFSIZE c.length c,
                     .callWrite s c (-1)] }) := by
  have htake : c.take BUFSIZE = c := List.take_of_length_le hlen
  have hpos : ¬ ((c.length : Int) ≤ 0) := by
    have : 0 < c.length := List.length_pos.mpr hc
    omega
  simp only [play_loop, sys_read, hfd, hr, htake, hpos, if_false, World.emit, pa_simple_write, hw,
    Int.toNat_ofNat, List.take_left', World.printf, World.fprintf]
  simp

theorem play_loop_inv (s : Option Nat) : ∀ (fuel : Nat) (w : World) (buf : List Byte),
    (play_loop s fuel w buf).2.fdt = w.fdt ∧ (play_loop s fuel w buf).2.sinks = w.sinks ∧
    ∃ t, (play_loop s fuel w buf).2.trace = w.trace ++ t ∧
      ∀ prev, writesFollowReads prev t = true := by
  intro fuel
  induction fuel with
  | zero => intro w buf; exact ⟨rfl, rfl, [], by simp [play_loop], fun _ => rfl⟩
  | succ n ih =>
    intro w buf
    cases hfd : getFd w.fdt STDIN_FILENO with
    | none =>
      rw [play_loop_closed s n w buf hfd]
      exact ⟨rfl, rfl, _, rfl, fun _ => rfl⟩
    | some f =>
      cases hr : w.reads with
      | nil =>
        have hrun : play_loop s (n + 1) w buf = (none, w) := by
          simp [play_loop, sys_read, hfd, hr]
        rw [hrun]
        exact ⟨rfl, rfl, [], by simp, fun _ => rfl⟩
      | cons rr tr =>
        cases rr with
        | fail e =>
          rw [play_loop_read_fail s n w buf f e tr hfd hr]
          exact ⟨rfl, rfl, _, rfl, fun _ => rfl⟩
        | data bytes =>
          have hle : (bytes.take BUFSIZE).length ≤ BUFSIZE := List.length_take_le _ _
          generalize hg : bytes.take BUFSIZE = got at hle
          by_cases hgot : got = []
          · have hrun : play_loop s (n + 1) w buf
                = (some EXIT_SUCCESS, { w with reads := tr }.emit
                    (.callRead STDIN_FILENO BUFSIZE 0 [])) := by
              simp [play_loop, sys_read, hfd, hr, hg, hgot]
            rw [hrun]
            exact ⟨rfl, rfl, _, rfl, fun _ => rfl⟩
          · have hone : 1 ≤ got.length := List.length_pos.mpr hgot
            have hpos : ¬ ((got.length : Int) ≤ 0) := by omega
            cases hw : w.writes with
            | nil =>
              have hrun : play_loop s (n + 1) w buf
                  = (none, { w with reads := tr }.emit
                      (.callRead STDIN_FILENO BUFSIZE got.length got)) := by
                simp only [play_loop, sys_read, hfd, hr, hg, hpos, if_false, pa_simple_write,
                  World.emit, hw]
              rw [hrun]
              exact ⟨rfl, rfl, _, rfl, fun _ => rfl⟩
            | cons wr tw =>
              cases wr with
              | fail e =>
                have hrun : play_loop s (n + 1) w buf
                    = (some e, (({ w with reads := tr, writes := tw }.emit
                        (.callRead STDIN_FILENO BUFSIZE got.length got)).emit
                        (.callWrite s got (-1))).fprintf "pa_simple_write() failed") := by
                  simp only [play_loop, sys_read, hfd, hr, hg, hpos, if_false, pa_simple_write,
                    World.emit, hw, Int.toNat_ofNat, List.take_left', World.printf,
                    World.fprintf]
                  simp
                rw [hrun]
                refine ⟨rfl, rfl,
                  [.callRead STDIN_FILENO BUFSIZE got.length got, .callWrite s got (-1)],
                  by simp [World.emit, World.printf, World.fprintf], fun prev => ?_⟩
                simp [writesFollowReads, writeOk, hle, hone]
              | ok =>
                have hrun : play_loop s (n + 1) w buf
                    = play_loop s n (({ w with reads := tr, writes := tw }.emit
                        (.callRead STDIN_FILENO BUFSIZE got.length got)).emit
                        (.callWrite s got 0)) (got ++ buf.drop got.length) := by
                  simp only [play_loop, sys_read, hfd, hr, hg, hpos, if_false, pa_simple_write,
                    World.emit, hw, Int.toNat_ofNat, List.take_left']
                  simp
                rw [hrun]
                obtain ⟨h1, h2, t, h3, h4⟩ := ih (({ w with reads := tr, writes := tw }.emit
                        (.callRead STDIN_FILENO BUFSIZE got.length got)).emit
                        (.callWrite s got 0)) (got ++ buf.drop got.length)
                refine ⟨h1, h2,
                  .callRead STDIN_FILENO BUFSIZE got.length got :: .callWrite s got 0 :: t,
                  ?_, fun prev => ?_⟩
                · rw [h3]; simp [World.emit]
                · simp [writesFollowReads, writeOk, hle, hone, h4]

theorem play_loop_succ (s : Option Nat) (n : Nat) (w : World) (buf : List Byte) :
    play_loop s (n + 1) w buf
      = match sys_read w STDIN_FILENO buf BUFSIZE with
        | none => (none, w)
        | some (r, buf1, w1) =>
          if r ≤ 0 then
            if r = 0 then (some EXIT_SUCCESS, w1)
            else
              let w2 := w1.fprintf "read() failed"
              (some w2.errno, w2)
          else
            match pa_simple_write w1 s (buf1.take r.toNat) with
            | none => (none, w1)
            | some (res, error, w2) =>
              if res < 0 then (some error, w2.fprintf "pa_simple_write() failed")
              else play_loop s n w2 buf1 := rfl

/-- The bound on the iterations is never reached: with more iterations allowed
than reads the environment answers, allowing one more changes nothing. -/
theorem play_loop_bound_unused (s : Option Nat) : ∀ (fuel : Nat) (w : World) (buf : List Byte),
    w.reads.length < fuel → play_loop s (fuel + 1) w buf = play_loop s fuel w buf := by
  intro fuel
  induction fuel with
  | zero => intro w buf h; exact absurd h (Nat.not_lt_zero _)
  | succ n ih =>
    intro w buf h
    cases hfd : getFd w.fdt STDIN_FILENO with
    | none => rw [play_loop_closed s (n + 1) w buf hfd, play_loop_closed s n w buf hfd]
    | some f =>
      cases hr : w.reads with
      | nil => simp [play_loop, sys_read, hfd, hr]
      | cons rr tr =>
        have htr : tr.length < n := by rw [hr] at h; simpa using h
        cases rr with
        | fail e =>
          rw [play_loop_read_fail s (n + 1) w buf f e tr hfd hr,
            play_loop_read_fail s n w buf f e tr hfd hr]
        | data bytes =>
          rw [play_loop_succ s (n + 1), play_loop_succ s n]
          simp only [sys_read, hfd, hr]
          split
          · rfl
          · cases hw : w.writes with
            | nil => simp [pa_simple_write, World.emit, hw]
            | cons wr tw =>
              cases wr with
              | fail e => simp [pa_simple_write, World.emit, hw]
              | ok =>
                simp only [pa_simple_write, World.emit, hw, lt_self_iff_false, if_false]
                exact ih _ _ htr

/-! ## Observations on the traces of complete cycles -/

theorem writtenBlocks_append (a b : List Event) :
    writtenBlocks (a ++ b) = writtenBlocks a ++ writtenBlocks b := by
  induction a with
  | nil => rfl
  | cons e t ih => cases e <;> simp [writtenBlocks, ih]

theorem acceptedBlocks_append (a b : List Event) :
    acceptedBlocks (a ++ b) = acceptedBlocks a ++ acceptedBlocks b := by
  induction a with
  | nil => rfl
  | cons e t ih =>
    cases e <;> simp [acceptedBlocks, ih]
    split <;> simp

theorem readBlocks_append (a b : List Event) :
    readBlocks (a ++ b) = readBlocks a ++ readBlocks b := by
  induction a with
  | nil => rfl
  | cons e t ih => cases e <;> simp [readBlocks, ih]

theorem writtenBlocks_cycleEvents (s : Option Nat) (chunks : List (List Byte)) :
    writtenBlocks (cycleEvents s chunks) = chunks := by
  induction chunks with
  | nil => rfl
  | cons c cs ih => simp [cycleEvents, writtenBlocks, ih]

theorem acceptedBlocks_cycleEvents (s : Option Nat) (chunks : List (List Byte)) :
    acceptedBlocks (cycleEvents s chunks) = chunks := by
  induction chunks with
  | nil => rfl
  | cons c cs ih => simp [cycleEvents, acceptedBlocks, ih]

theorem readBlocks_cycleEvents (s : Option Nat) (chunks : List (List Byte)) :
    readBlocks (cycleEvents s chunks) = chunks := by
  induction chunks with
  | nil => rfl
  | cons c cs ih => simp [cycleEvents, readBlocks, ih]

theorem newTrace_of_append (w w2 : World) (t : List Event) (h : w2.trace = w.trace ++ t) :
    newTrace w w2 = t := by
  simp [newTrace, h]

/-! ## Complete runs -/

theorem chunks_nonempty (chunks : List (List Byte))
    (h : ∀ c ∈ chunks, 1 ≤ c.length ∧ c.length ≤ BUFSIZE) :
    ∀ c ∈ chunks, c ≠ [] ∧ c.length ≤ BUFSIZE :=
  fun c hc => ⟨List.length_pos.mp (h c hc).1, (h c hc).2⟩

/-- After the complete cycles of `chunks`, the run continues from the loop head
with the rest of the answers. -/
theorem play_sound_cycles (w : World) (path : String) (file : Nat)
    (chunks : List (List Byte)) (tr : List ReadRes) (tw : List WriteRes)
    (hopen : w.fs path = .ok file) (hdup : w.dup2Err = none)
    (hstdin : getFd w.fdt STDIN_FILENO ≠ none)
    (hreads : w.reads = chunks.map ReadRes.data ++ tr)
    (hwrites : w.writes = List.replicate chunks.length WriteRes.ok ++ tw)
    (hchunks : ∀ c ∈ chunks, 1 ≤ c.length ∧ c.length ≤ BUFSIZE) :
    play_sound w path
      = play_loop (sinkOf w) (tr.length + 1)
          { loopWorld w path file with
            reads := tr
            writes := tw
            trace := w.trace ++ setupEvents path (lowestFree w.fdt) (sinkOf w)
              ++ cycleEvents (sinkOf w) chunks }
          (bufAfter w.stack chunks) := by
  have h0 := lowestFree_ne_stdin w.fdt hstdin
  rw [play_sound_eq_loop w path file hopen hdup]
  have hlen : w.reads.length + 1 = chunks.length + (tr.length + 1) := by
    rw [hreads]; simp; omega
  rw [hlen, play_loop_cycles (sinkOf w) chunks (tr.length + 1) (loopWorld w path file) w.stack
    file tr tw (loopWorld_stdin w path file h0) hreads hwrites (chunks_nonempty chunks hchunks)]
  rfl

/-- With standard input closed at entry `open` returns descriptor 0, which
`close(fd)` then closes: the first read fails with `EBADF` and ends the run.  So
a run whose reads return data started with standard input open. -/
theorem play_sound_stdin_closed (w : World) (path : String) (file : Nat)
    (hopen : w.fs path = .ok file) (hdup : w.dup2Err = none)
    (hstdin : getFd w.fdt STDIN_FILENO = none) :
    (play_sound w path).1 = some (w.stderrErr.getD EBADF) ∧
    newTrace w (play_sound w path).2
      = setupEvents path STDIN_FILENO (sinkOf w) ++ [.callRead STDIN_FILENO BUFSIZE (-1) []] := by
  have h0 := lowestFree_eq_stdin w.fdt hstdin
  have hclosed : getFd (loopWorld w path file).fdt STDIN_FILENO = none := by
    simp only [loopWorld, h0]
    exact getFd_setFd_same _ _ _
  rw [play_sound_eq_loop w path file hopen hdup,
    play_loop_closed (sinkOf w) w.reads.length (loopWorld w path file) w.stack hclosed]
  refine ⟨rfl, newTrace_of_append _ _ _ ?_⟩
  simp [loopWorld, h0]

theorem play_sound_success (w : World) (path : String) (file : Nat)
    (chunks : List (List Byte)) (tr : List ReadRes) (tw : List WriteRes)
    (hopen : w.fs path = .ok file) (hdup : w.dup2Err = none)
    (hstdin : getFd w.fdt STDIN_FILENO ≠ none)
    (hreads : w.reads = chunks.map ReadRes.data ++ ReadRes.data [] :: tr)
    (hwrites : w.writes = List.replicate chunks.length WriteRes.ok ++ tw)
    (hchunks : ∀ c ∈ chunks, 1 ≤ c.length ∧ c.length ≤ BUFSIZE) :
    play_sound w path
      = (some EXIT_SUCCESS,
          { loopWorld w path file with
            reads := tr
            writes := tw
            trace := w.trace ++ (setupEvents path (lowestFree w.fdt) (sinkOf w)
              ++ cycleEvents (sinkOf w) chunks ++ [.callRead STDIN_FILENO BUFSIZE 0 []]) }) := by
  have h0 := lowestFree_ne_stdin w.fdt hstdin
  rw [play_sound_cycles w path file chunks _ tw hopen hdup hstdin hreads hwrites hchunks]
  rw [List.length_cons]
  refine (play_loop_eof _ _ _ _ file tr (by exact loopWorld_stdin w path file h0) (by rfl)).trans ?_
  simp

theorem play_sound_read_fail (w : World) (path : String) (file : Nat)
    (chunks : List (List Byte)) (e : Int) (tr : List ReadRes) (tw : List WriteRes)
    (hopen : w.fs path = .ok file) (hdup : w.dup2Err = none)
    (hstdin : getFd w.fdt STDIN_FILENO ≠ none)
    (hreads : w.reads = chunks.map ReadRes.data ++ ReadRes.fail e :: tr)
    (hwrites : w.writes = List.replicate chunks.length WriteRes.ok ++ tw)
    (hchunks : ∀ c ∈ chunks, 1 ≤ c.length ∧ c.length ≤ BUFSIZE) :
    play_sound w path
      = (some (w.stderrErr.getD e),
          { loopWorld w path file with
            errno := w.stderrErr.getD e
            reads := tr
            writes := tw
            diag := (loopWorld w path file).diag ++ ["read() failed"]
            trace := w.trace ++ (setupEvents path (lowestFree w.fdt) (sinkOf w)
              ++ cycleEvents (sinkOf w) chunks ++ [.callRead STDIN_FILENO BUFSIZE (-1) []]) }) := by
  have h0 := lowestFree_ne_stdin w.fdt hstdin
  rw [play_sound_cycles w path file chunks _ tw hopen hdup hstdin hreads hwrites hchunks]
  rw [List.length_cons]
  refine (play_loop_read_fail _ _ _ _ file e tr (by exact loopWorld_stdin w path file h0)
    (by rfl)).trans ?_
  simp
  rfl

theorem play_sound_write_fail (w : World) (path : String) (file : Nat)
    (pre : List (List Byte)) (c : List Byte) (e : Int) (tr : List ReadRes) (tw : List WriteRes)
    (hopen : w.fs path = .ok file) (hdup : w.dup2Err = none)
    (hstdin : getFd w.fdt STDIN_FILENO ≠ none)
    (hreads : w.reads = (pre ++ [c]).map ReadRes.data ++ tr)
    (hwrites : w.writes = List.replicate pre.length WriteRes.ok ++ WriteRes.fail e :: tw)
    (hchunks : ∀ c2 ∈ pre ++ [c], 1 ≤ c2.length ∧ c2.length ≤ BUFSIZE) :
    play_sound w path
      = (some e,
          { loopWorld w path file with
            errno := w.stderrErr.getD (loopWorld w path file).errno
            reads := tr
            writes := tw
            diag := (loopWorld w path file).diag ++ ["pa_simple_write() failed"]
            trace := w.trace ++ (setupEvents path (lowestFree w.fdt) (sinkOf w)
              ++ cycleEvents (sinkOf w) pre
              ++ [.callRead STDIN_FILENO BUFSIZE c.length c, .callWrite (sinkOf w) c (-1)]) }) := by
  have h0 := lowestFree_ne_stdin w.fdt hstdin
  have hc := hchunks c (by simp)
  rw [play_sound_cycles w path file pre (ReadRes.data c :: tr) (WriteRes.fail e :: tw) hopen hdup
    hstdin (by simpa using hreads) hwrites (fun c2 h2 => hchunks c2 (by simp [h2]))]
  rw [List.length_cons]
  refine (play_loop_write_fail _ _ _ _ c file e tr tw
    (by exact loopWorld_stdin w path file h0) (by rfl) (by rfl)
    (List.length_pos.mp hc.1) hc.2).trans ?_
  simp
  rfl

/-! ## Reading a regular file -/

theorem BUFSIZE_pos : 0 < BUFSIZE := by decide

theorem fileChunks_nil (n : Nat) : fileChunks n [] = [] := by
  cases n <;> simp [fileChunks]

theorem fileChunks_bounds (n : Nat) : ∀ (rest : List Byte),
    ∀ c ∈ fileChunks n rest, 1 ≤ c.length ∧ c.length ≤ BUFSIZE := by
  induction n with
  | zero => intro rest c hc; simp [fileChunks] at hc
  | succ n ih =>
    intro rest c hc
    by_cases hrest : rest = []
    · simp [fileChunks, hrest] at hc
    · simp only [fileChunks, hrest, if_false, List.mem_cons] at hc
      rcases hc with hc | hc
      · subst hc
        have hpos : 0 < rest.length := List.length_pos.mpr hrest
        have hB := BUFSIZE_pos
        rw [List.length_take]
        omega
      · exact ih _ c hc

theorem fileChunks_flatten (n : Nat) : ∀ (rest : List Byte), rest.length ≤ n →
    (fileChunks n rest).flatten = rest := by
  induction n with
  | zero =>
    intro rest h
    have : rest = [] := List.length_eq_zero.mp (Nat.le_zero.mp h)
    simp [fileChunks, this]
  | succ n ih =>
    intro rest h
    by_cases hrest : rest = []
    · simp [fileChunks, hrest]
    · have hpos : 0 < rest.length := List.length_pos.mpr hrest
      have hB := BUFSIZE_pos
      have hdrop : (rest.drop BUFSIZE).length ≤ n := by
        rw [List.length_drop]; omega
      simp only [fileChunks, hrest, if_false, List.flatten_cons, ih _ hdrop]
      exact List.take_append_drop _ _

theorem fileChunks_lengths (n : Nat) : ∀ (rest : List Byte), rest.length ≤ n →
    (fileChunks n rest).map List.length
      = List.replicate (rest.length / BUFSIZE) BUFSIZE
          ++ (if rest.length % BUFSIZE = 0 then [] else [rest.length % BUFSIZE]) := by
  induction n with
  | zero =>
    intro rest h
    have : rest = [] := List.length_eq_zero.mp (Nat.le_zero.mp h)
    simp [fileChunks, this]
  | succ n ih =>
    intro rest h
    by_cases hrest : rest = []
    · simp [fileChunks, hrest]
    · have hpos : 0 < rest.length := List.length_pos.mpr hrest
      have hB := BUFSIZE_pos
      simp only [fileChunks, hrest, if_false, List.map_cons]
      by_cases hlt : rest.length < BUFSIZE
      · have hdrop : rest.drop BUFSIZE = [] := List.drop_eq_nil_of_le (Nat.le_of_lt hlt)
        have htake : rest.take BUFSIZE = rest := List.take_of_length_le (Nat.le_of_lt hlt)
        have hmod : rest.length % BUFSIZE = rest.length := Nat.mod_eq_of_lt hlt
        have hne : ¬ rest.length = 0 := by omega
        rw [hdrop, htake, fileChunks_nil, Nat.div_eq_of_lt hlt, hmod]
        simp [hne]
      · have hge : BUFSIZE ≤ rest.length := Nat.le_of_not_lt hlt
        have hdl : (rest.drop BUFSIZE).length = rest.length - BUFSIZE := List.length_drop _ _
        have hdrop : (rest.drop BUFSIZE).length ≤ n := by omega
        have htl : (rest.take BUFSIZE).length = BUFSIZE := by
          rw [List.length_take]; omega
        have hsplit : rest.length = (rest.length - BUFSIZE) + BUFSIZE := by omega
        have hdiv : rest.length / BUFSIZE = (rest.length - BUFSIZE) / BUFSIZE + 1 := by
          conv_lhs => rw [hsplit]
          exact Nat.add_div_right _ hB
        have hmod : rest.length % BUFSIZE = (rest.length - BUFSIZE) % BUFSIZE := by
          conv_lhs => rw [hsplit]
          exact Nat.add_mod_right _ _
        rw [ih _ hdrop, htl, hdl, hdiv, hmod, List.replicate_succ]
        simp

theorem fileChunks_count (content : List Byte) :
    (fileChunks content.length content).length = (content.length + 2047) / 2048 := by
  have h := congrArg List.length (fileChunks_lengths content.length content (Nat.le_refl _))
  simp only [List.length_map, List.length_append, List.length_replicate, BUFSIZE] at h
  rw [h]
  split <;> simp <;> omega

/-! ## Properties of `play_sound` -/

/-- C1. Byte-preserving transfer: when `open`, `dup2` and `pa_simple_new`
succeed, every write is accepted, and the reads (on a standard input that was
open at entry, so that `open` returns another descriptor) return the non-empty
chunks `chunks`, each of at most 2048 bytes, and then 0 bytes, `play_sound`
returns 0, the blocks passed to `pa_simple_write` are exactly the chunks in
order, and their concatenation equals the concatenation of the blocks returned
by `read`. -/
theorem byte_preserving_transfer (w : World) (path : String) (file s : Nat)
    (chunks : List (List Byte)) (tr : List ReadRes) (tw : List WriteRes)
    (hopen : w.fs path = .ok file) (hdup : w.dup2Err = none) (hnew : w.newRes = .ok s)
    (hstdin : getFd w.fdt STDIN_FILENO ≠ none)
    (hreads : w.reads = chunks.map ReadRes.data ++ ReadRes.data [] :: tr)
    (hwrites : w.writes = List.replicate chunks.length WriteRes.ok ++ tw)
    (hchunks : ∀ c ∈ chunks, 1 ≤ c.length ∧ c.length ≤ BUFSIZE) :
    (play_sound w path).1 = some 0 ∧
    newTrace w (play_sound w path).2
      = setupEvents path (lowestFree w.fdt) (some s) ++ cycleEvents (some s) chunks
          ++ [.callRead STDIN_FILENO BUFSIZE 0 []] ∧
    writtenBlocks (newTrace w (play_sound w path).2) = chunks ∧
    readBlocks (newTrace w (play_sound w path).2) = chunks ++ [[]] ∧
    (writtenBlocks (newTrace w (play_sound w path).2)).flatten
      = (readBlocks (newTrace w (play_sound w path).2)).flatten := by
  have hs : sinkOf w = some s := by simp [sinkOf, hnew]
  have hrun := play_sound_success w path file chunks tr tw hopen hdup hstdin hreads hwrites hchunks
  have htr : newTrace w (play_sound w path).2
      = setupEvents path (lowestFree w.fdt) (some s) ++ cycleEvents (some s) chunks
          ++ [.callRead STDIN_FILENO BUFSIZE 0 []] := by
    rw [hrun, hs]; exact newTrace_of_append _ _ _ rfl
  refine ⟨by rw [hrun]; rfl, htr, ?_, ?_, ?_⟩
  · rw [htr]
    simp [writtenBlocks_append, writtenBlocks_cycleEvents, setupEvents, writtenBlocks]
  · rw [htr]
    simp [readBlocks_append, readBlocks_cycleEvents, setupEvents, readBlocks]
  · rw [htr]
    simp [writtenBlocks_append, writtenBlocks_cycleEvents, readBlocks_append,
      readBlocks_cycleEvents, setupEvents, writtenBlocks, readBlocks]

/-- Witness of C1: two short reads of 3 bytes and 1 byte. -/
theorem byte_preserving_transfer_witness :
    (play_sound wTwoChunks "/tmp/tone.raw").1 = some 0 ∧
    writtenBlocks (newTrace wTwoChunks (play_sound wTwoChunks "/tmp/tone.raw").2)
      = [[1, 2, 3], [4]] :=
  have h := byte_preserving_transfer wTwoChunks "/tmp/tone.raw" 7 1 [[1, 2, 3], [4]] [] []
    (by rfl) (by rfl) (by rfl) (by decide) (by rfl) (by rfl) (by decide)
  ⟨h.1, h.2.2.1⟩

/-- When `open` fails with error number `e`, the only call `play_sound` makes is
that `open` (no `pa_simple_new`, no `read`, no `pa_simple_write`), the descriptor
table and the sink connections are untouched, and the value returned is what
`errno` holds after the diagnostic was printed: `e`, unless writing the
diagnostic failed. -/
theorem open_failure_run (w : World) (path : String) (e : Int)
    (hopen : w.fs path = .error e) :
    (play_sound w path).1 = some (w.stderrErr.getD e) ∧
    newTrace w (play_sound w path).2 = [.callOpen path (-1)] ∧
    (∀ ev ∈ newTrace w (play_sound w path).2, ev.isSinkOrRead = false) ∧
    (play_sound w path).2.fdt = w.fdt ∧
    (play_sound w path).2.sinks = w.sinks := by
  have hrun := play_sound_open_fail w path e hopen
  have htr : newTrace w (play_sound w path).2 = [.callOpen path (-1)] := by
    rw [hrun]; exact newTrace_of_append _ _ _ rfl
  refine ⟨by rw [hrun], htr, ?_, by rw [hrun], by rw [hrun]⟩
  rw [htr]
  simp [Event.isSinkOrRead]

/-- C2 (not met by the code when the diagnostic cannot be written). For the path
`/does/not/exist.raw`, on which `open` fails with error number 2, and stderr on
a full device, `play_sound` makes no call but that `open`, yet it returns 28,
the error number left by the failed `fprintf`, not the error number of the
`open`: `errno` is read after the diagnostic is printed. -/
theorem open_failure_returns_errno_of_fprintf :
    wStderrFull.fs "/does/not/exist.raw" = .error 2 ∧
    (play_sound wStderrFull "/does/not/exist.raw").1 = some 28 ∧
    newTrace wStderrFull (play_sound wStderrFull "/does/not/exist.raw").2
      = [.callOpen "/does/not/exist.raw" (-1)] :=
  ⟨rfl, by decide, by decide⟩

/-- C6. Write failure aborts the loop with the sink's code: when the first
`pre.length` writes are accepted and the next one, of chunk `c`, fails with sink
error code `e`, `play_sound` returns exactly `e`; the failed write is the last
call of the run (no read and no write after it, the remaining answers `tr` and
`tw` of the environment are not consumed); and the data accepted by the sink is
exactly the chunks read before `c`. -/
theorem write_failure_aborts (w : World) (path : String) (file : Nat)
    (pre : List (List Byte)) (c : List Byte) (e : Int) (tr : List ReadRes) (tw : List WriteRes)
    (hopen : w.fs path = .ok file) (hdup : w.dup2Err = none)
    (hstdin : getFd w.fdt STDIN_FILENO ≠ none)
    (hreads : w.reads = (pre ++ [c]).map ReadRes.data ++ tr)
    (hwrites : w.writes = List.replicate pre.length WriteRes.ok ++ WriteRes.fail e :: tw)
    (hchunks : ∀ c2 ∈ pre ++ [c], 1 ≤ c2.length ∧ c2.length ≤ BUFSIZE) :
    (play_sound w path).1 = some e ∧
    newTrace w (play_sound w path).2
      = setupEvents path (lowestFree w.fdt) (sinkOf w) ++ cycleEvents (sinkOf w) pre
          ++ [.callRead STDIN_FILENO BUFSIZE c.length c, .callWrite (sinkOf w) c (-1)] ∧
    (play_sound w path).2.reads = tr ∧
    (play_sound w path).2.writes = tw ∧
    acceptedBlocks (newTrace w (play_sound w path).2) = pre ∧
    (acceptedBlocks (newTrace w (play_sound w path).2)).flatten = pre.flatten := by
  have hrun := play_sound_write_fail w path file pre c e tr tw hopen hdup hstdin hreads hwrites
    hchunks
  have htr : newTrace w (play_sound w path).2
      = setupEvents path (lowestFree w.fdt) (sinkOf w) ++ cycleEvents (sinkOf w) pre
          ++ [.callRead STDIN_FILENO BUFSIZE c.length c, .callWrite (sinkOf w) c (-1)] := by
    rw [hrun]; exact newTrace_of_append _ _ _ rfl
  have hacc : acceptedBlocks (newTrace w (play_sound w path).2) = pre := by
    rw [htr]
    simp [acceptedBlocks_append, acceptedBlocks_cycleEvents, setupEvents, acceptedBlocks]
  exact ⟨by rw [hrun], htr, by rw [hrun], by rw [hrun], hacc, by rw [hacc]⟩

/-- Witness of C6: the second write fails with code 5. -/
theorem write_failure_aborts_witness :
    (play_sound wWriteFails "/tmp/tone.raw").1 = some 5 ∧
    acceptedBlocks (newTrace wWriteFails (play_sound wWriteFails "/tmp/tone.raw").2)
      = [[1, 2, 3]] ∧
    (play_sound wWriteFails "/tmp/tone.raw").2.reads = [.data []] :=
  have h := write_failure_aborts wWriteFails "/tmp/tone.raw" 7 [[1, 2, 3]] [4] 5 [.data []] []
    (by rfl) (by rfl) (by decide) (by rfl) (by rfl) (by decide)
  ⟨h.1, h.2.2.2.2.1, h.2.2.1⟩

/-- When, after the complete cycles of `chunks`, a read fails with error number
`e`, the failed read is the last call of the run: no `pa_simple_write` is issued
for it and no further read or write is performed (the remaining answers `tr` and
`tw` of the environment are not consumed).  The value returned is what `errno`
holds after the diagnostic was printed: `e`, unless writing the diagnostic
failed. -/
theorem read_failure_run (w : World) (path : String) (file : Nat)
    (chunks : List (List Byte)) (e : Int) (tr : List ReadRes) (tw : List WriteRes)
    (hopen : w.fs path = .ok file) (hdup : w.dup2Err = none)
    (hstdin : getFd w.fdt STDIN_FILENO ≠ none)
    (hreads : w.reads = chunks.map ReadRes.data ++ ReadRes.fail e :: tr)
    (hwrites : w.writes = List.replicate chunks.length WriteRes.ok ++ tw)
    (hchunks : ∀ c ∈ chunks, 1 ≤ c.length ∧ c.length ≤ BUFSIZE) :
    (play_sound w path).1 = some (w.stderrErr.getD e) ∧
    newTrace w (play_sound w path).2
      = setupEvents path (lowestFree w.fdt) (sinkOf w) ++ cycleEvents (sinkOf w) chunks
          ++ [.callRead STDIN_FILENO BUFSIZE (-1) []] ∧
    writtenBlocks (newTrace w (play_sound w path).2) = chunks ∧
    (play_sound w path).2.reads = tr ∧
    (play_sound w path).2.writes = tw := by
  have hrun := play_sound_read_fail w path file chunks e tr tw hopen hdup hstdin hreads hwrites
    hchunks
  have htr : newTrace w (play_sound w path).2
      = setupEvents path (lowestFree w.fdt) (sinkOf w) ++ cycleEvents (sinkOf w) chunks
          ++ [.callRead STDIN_FILENO BUFSIZE (-1) []] := by
    rw [hrun]; exact newTrace_of_append _ _ _ rfl
  refine ⟨by rw [hrun], htr, ?_, by rw [hrun], by rw [hrun]⟩
  rw [htr]
  simp [writtenBlocks_append, writtenBlocks_cycleEvents, setupEvents, writtenBlocks]

/-- C7 (not met by the code when the diagnostic cannot be written). After one
complete cycle the second read fails with error number 5; with stderr on a full
device `play_sound` stops there (the failed read is its last call, nothing is
written for it), yet it returns 28, the error number left by the failed
`fprintf`, not the error number of the read: `errno` is read after the
diagnostic is printed. -/
theorem read_failure_returns_errno_of_fprintf :
    wReadFailsStderrFull.reads = [.data [1, 2, 3], .fail 5, .data []] ∧
    (play_sound wReadFailsStderrFull "/tmp/tone.raw").1 = some 28 ∧
    newTrace wReadFailsStderrFull (play_sound wReadFailsStderrFull "/tmp/tone.raw").2
      = [.callOpen "/tmp/tone.raw" 3, .callDup2 3 0 0, .callClose 3,
         .callNew "/tmp/tone.raw" (some 1), .callRead 0 2048 3 [1, 2, 3],
         .callWrite (some 1) [1, 2, 3] 0, .callRead 0 2048 (-1) []] := by
  decide

/-- The values `play_sound` returns: 0 when `open` and `dup2` succeed and the loop
ends on a zero-byte read after complete cycles; when `open`, `dup2` or a read
fails with error number `e`, what `errno` holds after the diagnostic was
printed, which is `e` unless writing the diagnostic failed. -/
theorem exit_codes (w : World) (path : String) :
    (∀ (file : Nat) (chunks : List (List Byte)) (tr : List ReadRes) (tw : List WriteRes),
      w.fs path = .ok file → w.dup2Err = none → getFd w.fdt STDIN_FILENO ≠ none →
      w.reads = chunks.map ReadRes.data ++ ReadRes.data [] :: tr →
      w.writes = List.replicate chunks.length WriteRes.ok ++ tw →
      (∀ c ∈ chunks, 1 ≤ c.length ∧ c.length ≤ BUFSIZE) →
      (play_sound w path).1 = some 0) ∧
    (∀ e : Int, w.fs path = .error e →
      (play_sound w path).1 = some (w.stderrErr.getD e)) ∧
    (∀ (file : Nat) (e : Int), w.fs path = .ok file → w.dup2Err = some e →
      (play_sound w path).1 = some (w.stderrErr.getD e)) ∧
    (∀ (file : Nat) (chunks : List (List Byte)) (e : Int) (tr : List ReadRes)
        (tw : List WriteRes),
      w.fs path = .ok file → w.dup2Err = none → getFd w.fdt STDIN_FILENO ≠ none →
      w.reads = chunks.map ReadRes.data ++ ReadRes.fail e :: tr →
      w.writes = List.replicate chunks.length WriteRes.ok ++ tw →
      (∀ c ∈ chunks, 1 ≤ c.length ∧ c.length ≤ BUFSIZE) →
      (play_sound w path).1 = some (w.stderrErr.getD e)) ∧
    (∀ (file : Nat), w.fs path = .ok file → w.dup2Err = none →
      getFd w.fdt STDIN_FILENO = none →
      (play_sound w path).1 = some (w.stderrErr.getD EBADF)) := by
  refine ⟨?_, ?_, ?_, ?_, ?_⟩
  · intro file chunks tr tw hopen hdup hstdin hreads hwrites hchunks
    rw [play_sound_success w path file chunks tr tw hopen hdup hstdin hreads hwrites hchunks]
    rfl
  · intro e hopen
    rw [play_sound_open_fail w path e hopen]
  · intro file e hopen hdup
    rw [play_sound_dup2_fail w path file e hopen hdup]
  · intro file chunks e tr tw hopen hdup hstdin hreads hwrites hchunks
    rw [play_sound_read_fail w path file chunks e tr tw hopen hdup hstdin hreads hwrites hchunks]
  · intro file hopen hdup hstdin
    exact (play_sound_stdin_closed w path file hopen hdup hstdin).1

/-- C8 (not met by the code when the diagnostic cannot be written). A run that
ends at end of file returns 0.  With stderr on a full device, a failing `open`
(error number 2), a failing `dup2` (error number 4) and a failing read (error
number 5) each make `play_sound` return 28, the error number left by the failed
`fprintf`, not the error number of the failing call: `errno` is read after the
diagnostic is printed. -/
theorem exit_code_is_errno_of_fprintf :
    (play_sound wStderrFull "/tmp/tone.raw").1 = some 0 ∧
    (wStderrFull.fs "/does/not/exist.raw" = .error 2 ∧
      (play_sound wStderrFull "/does/not/exist.raw").1 = some 28) ∧
    (wDup2FailsStderrFull.dup2Err = some 4 ∧
      (play_sound wDup2FailsStderrFull "/tmp/tone.raw").1 = some 28) ∧
    (wReadFailsStderrFull.reads = [.data [1, 2, 3], .fail 5, .data []] ∧
      (play_sound wReadFailsStderrFull "/tmp/tone.raw").1 = some 28) :=
  ⟨by decide, ⟨rfl, by decide⟩, ⟨by decide, by decide⟩, ⟨by decide, by decide⟩⟩

/-- C9. Write-size invariant: in every run of `play_sound`, whatever the
environment answers, every `pa_simple_write` comes immediately after a `read`
that returned `r` bytes with `1 ≤ r ≤ 2048`, and is passed exactly `r` bytes,
which are exactly the bytes that read placed in the buffer (never bytes left in
the buffer by an earlier read). -/
theorem write_size_invariant (w : World) (path : String) :
    writesFollowReads none (newTrace w (play_sound w path).2) = true := by
  cases hopen : w.fs path with
  | error e =>
    rw [play_sound_open_fail w path e hopen, newTrace_of_append _ _ _ rfl]
    rfl
  | ok file =>
    cases hdup : w.dup2Err with
    | some e =>
      rw [play_sound_dup2_fail w path file e hopen hdup, newTrace_of_append _ _ _ rfl]
      rfl
    | none =>
      rw [play_sound_eq_loop w path file hopen hdup]
      obtain ⟨_, _, t, ht, hinv⟩ :=
        play_loop_inv (sinkOf w) (w.reads.length + 1) (loopWorld w path file) w.stack
      have htr : newTrace w
          (play_loop (sinkOf w) (w.reads.length + 1) (loopWorld w path file) w.stack).2
          = setupEvents path (lowestFree w.fdt) (sinkOf w) ++ t := by
        apply newTrace_of_append
        rw [ht]
        simp [loopWorld]
      rw [htr]
      simp [setupEvents, writesFollowReads, writeOk, hinv]

/-- A short chunk after a longer one is written with its own length and its own
bytes: after a read of 5 bytes, a read of 1 byte leads to a write of that byte
alone. -/
theorem short_chunk_not_padded :
    writtenBlocks (newTrace
      (sampleWorld stdFds none (.ok 1) [.data [1, 2, 3, 4, 5], .data [6], .data []] [.ok, .ok])
      (play_sound
        (sampleWorld stdFds none (.ok 1) [.data [1, 2, 3, 4, 5], .data [6], .data []] [.ok, .ok])
        "/tmp/tone.raw").2) = [[1, 2, 3, 4, 5], [6]] := by
  rfl

/-- C5. Chunking of a file of length N: when the input is a regular file of
`N = content.length` bytes, whose reads each return the next `min 2048 (bytes
remaining)` bytes and then 0 at end of file, and all writes are accepted,
`play_sound` returns 0 and the write lengths are `N / 2048` times 2048 followed
by `N % 2048` when that is not 0: `⌈N / 2048⌉` read/write cycles, then the read
that finds the end of the file.  The bytes written are the content of the file. -/
theorem file_chunking (w : World) (path : String) (file : Nat) (content : List Byte)
    (tr : List ReadRes) (tw : List WriteRes)
    (hopen : w.fs path = .ok file) (hdup : w.dup2Err = none)
    (hstdin : getFd w.fdt STDIN_FILENO ≠ none)
    (hreads : w.reads = fileReads content ++ tr)
    (hwrites : w.writes = List.replicate ((content.length + 2047) / 2048) WriteRes.ok ++ tw) :
    (play_sound w path).1 = some 0 ∧
    writeLens (newTrace w (play_sound w path).2)
      = List.replicate (content.length / 2048) 2048
          ++ (if content.length % 2048 = 0 then [] else [content.length % 2048]) ∧
    (writtenBlocks (newTrace w (play_sound w path).2)).length = (content.length + 2047) / 2048 ∧
    (readBlocks (newTrace w (play_sound w path).2)).length
      = (content.length + 2047) / 2048 + 1 ∧
    (writtenBlocks (newTrace w (play_sound w path).2)).flatten = content := by
  have hr : w.reads = (fileChunks content.length content).map ReadRes.data
      ++ ReadRes.data [] :: tr := by
    rw [hreads]; simp [fileReads]
  have hw : w.writes = List.replicate (fileChunks content.length content).length WriteRes.ok
      ++ tw := by
    rw [hwrites, fileChunks_count]
  have hrun := play_sound_success w path file (fileChunks content.length content) tr tw hopen
    hdup hstdin hr hw (fileChunks_bounds _ _)
  have htr : newTrace w (play_sound w path).2
      = setupEvents path (lowestFree w.fdt) (sinkOf w)
          ++ cycleEvents (sinkOf w) (fileChunks content.length content)
          ++ [.callRead STDIN_FILENO BUFSIZE 0 []] := by
    rw [hrun]; exact newTrace_of_append _ _ _ rfl
  have hwb : writtenBlocks (newTrace w (play_sound w path).2)
      = fileChunks content.length content := by
    rw [htr]
    simp [writtenBlocks_append, writtenBlocks_cycleEvents, setupEvents, writtenBlocks]
  have hrb : readBlocks (newTrace w (play_sound w path).2)
      = fileChunks content.length content ++ [[]] := by
    rw [htr]
    simp [readBlocks_append, readBlocks_cycleEvents, setupEvents, readBlocks]
  refine ⟨by rw [hrun]; rfl, ?_, ?_, ?_, ?_⟩
  · have h := fileChunks_lengths content.length content (Nat.le_refl _)
    simp only [BUFSIZE] at h
    rw [writeLens, hwb, h]
  · rw [hwb, fileChunks_count]
  · rw [hrb, List.length_append, fileChunks_count]; rfl
  · rw [hwb, fileChunks_flatten _ _ (Nat.le_refl _)]

/-- Witness of C5: files of 3000, 4096 and 0 bytes. -/
theorem file_chunking_witness :
    ((play_sound (wFile 3000) "/tmp/tone.raw").1 = some 0 ∧
      writeLens (newTrace (wFile 3000) (play_sound (wFile 3000) "/tmp/tone.raw").2)
        = [2048, 952]) ∧
    ((play_sound (wFile 4096) "/tmp/tone.raw").1 = some 0 ∧
      writeLens (newTrace (wFile 4096) (play_sound (wFile 4096) "/tmp/tone.raw").2)
        = [2048, 2048] ∧
      (readBlocks (newTrace (wFile 4096) (play_sound (wFile 4096) "/tmp/tone.raw").2)).length
        = 3) ∧
    ((play_sound (wFile 0) "/tmp/tone.raw").1 = some 0 ∧
      writeLens (newTrace (wFile 0) (play_sound (wFile 0) "/tmp/tone.raw").2) = []) := by
  have h1 := file_chunking (wFile 3000) "/tmp/tone.raw" 7 (List.replicate 3000 0) [] []
    (by rfl) (by rfl) (by decide) (by rw [List.append_nil]; rfl)
    (by rw [List.append_nil, List.length_replicate]; rfl)
  have h2 := file_chunking (wFile 4096) "/tmp/tone.raw" 7 (List.replicate 4096 0) [] []
    (by rfl) (by rfl) (by decide) (by rw [List.append_nil]; rfl)
    (by rw [List.append_nil, List.length_replicate]; rfl)
  have h3 := file_chunking (wFile 0) "/tmp/tone.raw" 7 (List.replicate 0 0) [] []
    (by rfl) (by rfl) (by decide) (by rw [List.append_nil]; rfl)
    (by rw [List.append_nil, List.length_replicate]; rfl)
  simp only [List.length_replicate] at h1 h2 h3
  refine ⟨⟨h1.1, ?_⟩, ⟨h2.1, ?_, ?_⟩, ⟨h3.1, ?_⟩⟩
  · rw [h1.2.1]; decide
  · rw [h2.2.1]; decide
  · rw [h2.2.2.2.1]
  · rw [h3.2.1]; decide

/-- C3 (not met by the code). After `pa_simple_new` returned `NULL` the code only
logs and goes on into the loop.  With an empty file it performs a read and
returns 0; with a file of three bytes it reads them and calls
`pa_simple_write` with the `NULL` connection. -/
theorem sink_open_failure_enters_loop :
    (play_sound wNoSink "/tmp/tone.raw").1 = some 0 ∧
    newTrace wNoSink (play_sound wNoSink "/tmp/tone.raw").2
      = [.callOpen "/tmp/tone.raw" 3, .callDup2 3 0 0, .callClose 3,
         .callNew "/tmp/tone.raw" none, .callRead 0 2048 0 []] ∧
    newTrace wNoSinkData (play_sound wNoSinkData "/tmp/tone.raw").2
      = [.callOpen "/tmp/tone.raw" 3, .callDup2 3 0 0, .callClose 3,
         .callNew "/tmp/tone.raw" none, .callRead 0 2048 3 [1, 2, 3],
         .callWrite none [1, 2, 3] (-1)] := by
  decide

/-- C4 as stated fails: after a successful run the sink connection and
descriptor 0, both acquired during the call, are still open. -/
theorem handles_not_released_on_success :
    (play_sound wTwoChunks "/tmp/tone.raw").1 = some 0 ∧
    handlesReleased wTwoChunks (play_sound wTwoChunks "/tmp/tone.raw").2 = false ∧
    (play_sound wTwoChunks "/tmp/tone.raw").2.sinks = [1] ∧
    getFd (play_sound wTwoChunks "/tmp/tone.raw").2.fdt STDIN_FILENO = some 7 := by
  decide

/-- C4, amended. In every run in which `open` and `dup2` succeed, whatever
`pa_simple_new`, the reads and the writes do, at exit the descriptor returned by
`open` is closed again; nothing else is released: descriptor 0, when `open`
returned another descriptor, still refers to the opened file, and a connection
returned by `pa_simple_new` is still open. -/
theorem original_descriptor_released (w : World) (path : String) (file : Nat)
    (hopen : w.fs path = .ok file) (hdup : w.dup2Err = none) :
    getFd (play_sound w path).2.fdt (lowestFree w.fdt) = none ∧
    (lowestFree w.fdt ≠ STDIN_FILENO →
      getFd (play_sound w path).2.fdt STDIN_FILENO = some file) ∧
    (play_sound w path).2.sinks
      = (match w.newRes with
         | .ok s => s :: w.sinks
         | .error _ => w.sinks) := by
  rw [play_sound_eq_loop w path file hopen hdup]
  obtain ⟨hfdt, hsinks, _⟩ :=
    play_loop_inv (sinkOf w) (w.reads.length + 1) (loopWorld w path file) w.stack
  rw [hfdt, hsinks]
  refine ⟨?_, fun h0 => loopWorld_stdin w path file h0, rfl⟩
  simp only [loopWorld]
  exact getFd_setFd_same _ _ _

/-- Witness of the amended C4: the run of `wTwoChunks`. -/
theorem original_descriptor_released_witness :
    getFd (play_sound wTwoChunks "/tmp/tone.raw").2.fdt 3 = none ∧
    getFd (play_sound wTwoChunks "/tmp/tone.raw").2.fdt STDIN_FILENO = some 7 ∧
    (play_sound wTwoChunks "/tmp/tone.raw").2.sinks = [1] :=
  have h := original_descriptor_released wTwoChunks "/tmp/tone.raw" 7 (by rfl) (by rfl)
  ⟨h.1, h.2.1 (by decide), h.2.2⟩

/-- When `open` returns a descriptor other than 0, descriptor 0 refers to the
opened file after `dup2(fd, 0)` and `close(fd)`. -/
theorem redirect_keeps_stdin (w : World) (path : String) (file : Nat)
    (hopen : w.fs path = .ok file) (hdup : w.dup2Err = none)
    (h0 : lowestFree w.fdt ≠ STDIN_FILENO) :
    (sys_open w path).1 = lowestFree w.fdt ∧
    (sys_dup2 (sys_open w path).2 (lowestFree w.fdt) STDIN_FILENO).1 = STDIN_FILENO ∧
    getFd (sys_close (sys_dup2 (sys_open w path).2 (lowestFree w.fdt) STDIN_FILENO).2
      (lowestFree w.fdt)).fdt STDIN_FILENO = some file := by
  have hfd : getFd (setFd (setFd w.fdt (lowestFree w.fdt) (some file)) STDIN_FILENO
      (some file)) (lowestFree w.fdt) = some file := by
    rw [getFd_setFd_other _ _ _ _ h0, getFd_setFd_same]
  simp only [sys_open, hopen, World.emit, sys_dup2, getFd_setFd_same, hdup, h0, if_false,
    sys_close, hfd]
  refine ⟨trivial, trivial, ?_⟩
  rw [getFd_setFd_other _ _ _ _ (Ne.symm h0), getFd_setFd_same]

/-- C10 (not met by the code when `open` returns 0). With standard input closed
at entry `open` returns descriptor 0, `dup2(0, 0)` succeeds and changes nothing,
and `close(0)` closes descriptor 0: it no longer refers to the file, the first
read of the loop fails with `EBADF` and nothing is written. -/
theorem redirect_loses_stdin_when_open_returns_it :
    getFd wStdinClosed.fdt STDIN_FILENO = none ∧
    (sys_open wStdinClosed "/tmp/tone.raw").1 = 0 ∧
    (sys_dup2 (sys_open wStdinClosed "/tmp/tone.raw").2 0 STDIN_FILENO).1 = 0 ∧
    getFd (sys_dup2 (sys_open wStdinClosed "/tmp/tone.raw").2 0 STDIN_FILENO).2.fdt
      STDIN_FILENO = some 7 ∧
    getFd (sys_close (sys_dup2 (sys_open wStdinClosed "/tmp/tone.raw").2 0 STDIN_FILENO).2
      0).fdt STDIN_FILENO = none ∧
    (play_sound wStdinClosed "/tmp/tone.raw").1 = some EBADF ∧
    newTrace wStdinClosed (play_sound wStdinClosed "/tmp/tone.raw").2
      = [.callOpen "/tmp/tone.raw" 0, .callDup2 0 0 0, .callClose 0,
         .callNew "/tmp/tone.raw" (some 1), .callRead 0 2048 (-1) []] := by
  decide

end Play
